import Mathlib

/-!
Shallow embedding of the PDF curve model of `pdf.py` (class `PDF`):
construction, axis compatibility, distance, arithmetic, extrema search,
index lookup helpers, point insertion and the gr-file line parser.
Floats are modelled as rationals; numpy arrays as lists of rationals.
-/

deriving instance DecidableEq for Except

/-- Typed failures of the curve operations.  `dimensionMismatch` embeds the
`ValueError` raised by `PDF.__init__` with the two lengths that its message
carries; `indexError` embeds numpy/python `IndexError`; `duplicatePoint`
embeds the `ValueError` of the point-insertion methods; `valueError` embeds
the remaining `ValueError`s (tuple unpacking, float conversion);
`xAxisException` embeds the `XAxisException` class. -/
inductive PDFErr where
  | xAxisException (x1 x2 : List ℚ)
  | dimensionMismatch (lenR lenG : Nat)
  | indexError
  | duplicatePoint (x : ℚ)
  | valueError (msg : String)
deriving DecidableEq

/-- The curve entity: fields of class `PDF` (`self.r`, `self.g`,
`self.name`, `self.scaling_factor`). -/
structure PDF where
  r : List ℚ
  g : List ℚ
  name : String
  scaling_factor : ℚ
deriving DecidableEq

/-- Default absolute tolerance of `np.allclose` (`atol=1e-8`); the code
always passes `rtol=0`. -/
def atol : ℚ := 1 / 100000000

/-- Elementwise closeness of two equal-length arrays:
`np.allclose(u, v, rtol=0)`, i.e. `|u i - v i| <= atol` for all `i`.
Callers in the source compare sizes before calling `np.allclose`, so the
broadcasting semantics of unequal sizes is not modelled. -/
def all_close : List ℚ → List ℚ → Bool
  | [], _ => true
  | _, [] => true
  | x :: xs, y :: ys => decide (|x - y| ≤ atol) && all_close xs ys

/-- `PDF.x_axes_compatible`: equal size and `np.allclose(self.r, other.r, rtol=0)`. -/
def x_axes_compatible (a b : PDF) : Bool :=
  decide (a.r.length = b.r.length) && all_close a.r b.r

/-- The sortedness test of `PDF.__init__`: `np.all(r[:-1] <= r[1:])`. -/
def sorted_le : List ℚ → Bool
  | [] => true
  | [_] => true
  | x :: y :: t => decide (x ≤ y) && sorted_le (y :: t)

/-- Insert index `i` into a list of indices kept ordered by the key `k`
(insertion step of `argsort`). -/
def ins_by_key (k : Nat → ℚ) (i : Nat) : List Nat → List Nat
  | [] => [i]
  | j :: t => if k j ≤ k i then j :: ins_by_key k i t else i :: j :: t

/-- `np.argsort(r)`: the indices `0..len r - 1` ordered by the value they
index (an insertion sort; the tie order of `np.argsort` is unspecified and
immaterial to every property proved here). -/
def argsort (r : List ℚ) : List Nat :=
  (List.range r.length).foldr (ins_by_key (fun i => r.getD i 0)) []

/-- `PDF.__init__`: if `r` is not ascending, reorder both `r` and `g` by
`argsort r` — numpy fancy indexing `g[sort_indices]` raises `IndexError`
when an index is out of bounds for `g`, and otherwise yields exactly the
indexed elements (so a longer `g` is silently truncated to the index list).
Then the length check raises the `DimensionMismatch` `ValueError` on
unequal lengths; otherwise the fields are stored with `scaling_factor = 1`. -/
def pdf_init (r g : List ℚ) (name : String) : Except PDFErr PDF :=
  let sorted_pair : Except PDFErr (List ℚ × List ℚ) :=
    if sorted_le r then .ok (r, g)
    else
      let idx := argsort r
      if idx.all (fun i => decide (i < g.length)) then
        .ok (idx.map (fun i => r.getD i 0), idx.map (fun i => g.getD i 0))
      else .error .indexError
  match sorted_pair with
  | .error e => .error e
  | .ok (r', g') =>
    if r'.length = g'.length then .ok ⟨r', g', name, 1⟩
    else .error (.dimensionMismatch r'.length g'.length)

/-- `PDF.get_distance`: on compatible axes, `self.g * self.scaling_factor -
other.g * other.scaling_factor` elementwise, then `np.abs`, then `np.sum`;
otherwise raises `XAxisException(self.r, other.r)`. -/
def get_distance (a b : PDF) : Except PDFErr ℚ :=
  if x_axes_compatible a b then
    .ok (((List.zipWith (fun x y => x * a.scaling_factor - y * b.scaling_factor) a.g b.g).map
      (fun d => |d|)).sum)
  else .error (.xAxisException a.r b.r)

/-- `PDF.__add__`: on compatible axes, constructs a fresh `PDF` via
`PDF.__init__` from `self.r`, the elementwise effective sum, and the name
`f"{self.name} + {other.name}"`; otherwise raises `XAxisException`. -/
def pdf_add (a b : PDF) : Except PDFErr PDF :=
  if x_axes_compatible a b then
    pdf_init a.r (List.zipWith (fun x y => x * a.scaling_factor + y * b.scaling_factor) a.g b.g)
      (a.name ++ " + " ++ b.name)
  else .error (.xAxisException a.r b.r)

/-- `PDF.__iadd__`: on compatible axes, mutates `self.g` to
`self.g + other.g * (other.scaling_factor / self.scaling_factor)` (no guard
on the divisor) and returns `self`; otherwise raises `XAxisException`. -/
def pdf_iadd (a b : PDF) : Except PDFErr PDF :=
  if x_axes_compatible a b then
    .ok ⟨a.r, List.zipWith (fun x y => x + y * (b.scaling_factor / a.scaling_factor)) a.g b.g,
      a.name, a.scaling_factor⟩
  else .error (.xAxisException a.r b.r)

/-- `PDF.__isub__`: on compatible axes, mutates `self.g` to
`self.g - other.g * (other.scaling_factor / self.scaling_factor)` (no guard
on the divisor) and returns `self`; otherwise raises `XAxisException`. -/
def pdf_isub (a b : PDF) : Except PDFErr PDF :=
  if x_axes_compatible a b then
    .ok ⟨a.r, List.zipWith (fun x y => x - y * (b.scaling_factor / a.scaling_factor)) a.g b.g,
      a.name, a.scaling_factor⟩
  else .error (.xAxisException a.r b.r)

/-- `PDF.__eq__`: sizes of `r` and `g` agree and both `np.allclose(self.r,
other.r, rtol=0)` and `np.allclose(self.g * self.scaling_factor, other.g *
other.scaling_factor, rtol=0)` hold. -/
def pdf_eq (a b : PDF) : Bool :=
  decide (a.r.length = b.r.length) && decide (a.g.length = b.g.length) &&
    all_close a.r b.r &&
    all_close (a.g.map (fun x => x * a.scaling_factor)) (b.g.map (fun y => y * b.scaling_factor))

/-- `PDF._get_rmin_index`: `np.where(self.r >= r_min)[0]` (the ascending
list of indices whose value is `≥ r_min`), then `np.amin` of it when it is
non-empty, else `0`. -/
def get_rmin_index (r : List ℚ) (x : ℚ) : Nat :=
  match (List.range r.length).filter (fun i => decide (x ≤ r.getD i 0)) with
  | [] => 0
  | h :: t => t.foldl Nat.min h

/-- `PDF._get_rmax_index`: `np.where(self.r <= r_max)[0]`, then `np.amax`
of it when it is non-empty, else `self.r.size`. -/
def get_rmax_index (r : List ℚ) (x : ℚ) : Nat :=
  match (List.range r.length).filter (fun i => decide (r.getD i 0 ≤ x)) with
  | [] => r.length
  | h :: t => t.foldl Nat.max h

/-- `np.insert(arr, index, x)`: insert `x` before position `index`
(every call site passes an index `≤` the length). -/
def np_insert : Nat → ℚ → List ℚ → List ℚ
  | 0, x, l => x :: l
  | _ + 1, x, [] => [x]
  | n + 1, x, a :: l => a :: np_insert n x l

/-- `PDF._insert_point`: inserts `x` into `self.r` and `y` into `self.g` at
`self._get_rmin_index(x)` (the integer-to-float dtype promotion of the
source is a no-op in the rational model). -/
def insert_point (p : PDF) (x y : ℚ) : PDF :=
  ⟨np_insert (get_rmin_index p.r x) x p.r, np_insert (get_rmin_index p.r x) y p.g,
    p.name, p.scaling_factor⟩

/-- Python indexing `arr[i]`: the element when `i < len arr`, otherwise an
`IndexError` (negative indices never arise at the call sites). -/
def py_get (l : List ℚ) (i : Nat) : Except PDFErr ℚ :=
  if i < l.length then .ok (l.getD i 0) else .error .indexError

/-- `PDF.add_point_linear`: raises the duplicate-point `ValueError` when
`x ∈ self.r`; otherwise reads `r`/`g` at `_get_rmax_index x` and
`_get_rmin_index x`, builds the line through the two points and inserts
`(x, m*x + (y1 - x1*m))` via `_insert_point`. -/
def add_point_linear (p : PDF) (x : ℚ) : Except PDFErr PDF :=
  if p.r.contains x then .error (.duplicatePoint x)
  else
    (py_get p.r (get_rmax_index p.r x)).bind fun x1 =>
    (py_get p.r (get_rmin_index p.r x)).bind fun x2 =>
    (py_get p.g (get_rmax_index p.r x)).bind fun y1 =>
    (py_get p.g (get_rmin_index p.r x)).bind fun y2 =>
    let m := (y2 - y1) / (x2 - x1)
    .ok (insert_point p x (m * x + (y1 - x1 * m)))

/-- `scipy.signal.argrelextrema(g, cmp)` with the default `order=1` and
`mode="clip"`: the indices `i` with `cmp g[i] g[clip (i-1)]` and
`cmp g[i] g[clip (i+1)]`, where clipping maps `-1` to `0` (natural-number
truncated subtraction does exactly this) and `n` to `n - 1`. -/
def argrelextrema_idx (g : List ℚ) (cmp : ℚ → ℚ → Bool) : List Nat :=
  (List.range g.length).filter (fun i =>
    cmp (g.getD i 0) (g.getD (i - 1) 0) && cmp (g.getD i 0) (g.getD (min (i + 1) (g.length - 1)) 0))

/-- `PDF.find_maxima`: `argrelextrema(self.g, np.greater)`, mapped to
`(self.r[i], self.g[i])` pairs. -/
def find_maxima (p : PDF) : List (ℚ × ℚ) :=
  (argrelextrema_idx p.g (fun u v => decide (v < u))).map (fun i => (p.r.getD i 0, p.g.getD i 0))

/-- `PDF.find_minima`: `argrelextrema(self.g, np.less)`, mapped to
`(self.r[i], self.g[i])` pairs. -/
def find_minima (p : PDF) : List (ℚ × ℚ) :=
  (argrelextrema_idx p.g (fun u v => decide (u < v))).map (fun i => (p.r.getD i 0, p.g.getD i 0))

/-- Result record of `scipy.optimize.minimize_scalar`: the code reads
`res.success`, `res.x` and `res.message`. -/
structure MinimizeResult where
  success : Bool
  x : ℚ
  message : String

/-- Python slicing `l[i:j]` (for the non-negative indices the code
produces). -/
def py_slice (l : List ℚ) (i j : Nat) : List ℚ := (l.drop i).take (j - i)

/-- `np.amin` of a non-empty array (the code only applies it to curve
axes; the empty case, an error in numpy, is given the unused default 0). -/
def np_amin : List ℚ → ℚ
  | [] => 0
  | h :: t => t.foldl min h

/-- `np.amax` of a non-empty array (empty case as in `np_amin`). -/
def np_amax : List ℚ → ℚ
  | [] => 0
  | h :: t => t.foldl max h

/-- `PDF.scale_to_pdf`, with the external Brent minimizer abstracted as the
oracle `m` receiving exactly the arguments the source passes
(`self.g[start_i:end_i]` and `other.g[start_i:end_i] * other.scaling_factor`).
Returns the updated curve together with the list of lines the call prints:
on `res.success` the scaling factor becomes `res.x` and nothing is printed;
otherwise the curve is returned unchanged and `res.message` is printed
(`print(res.message)` — no exception). Incompatible slices raise
`XAxisException(self.r, other.r)`. -/
def scale_to_pdf (m : List ℚ → List ℚ → MinimizeResult) (a b : PDF)
    (s e : Option ℚ) : Except PDFErr (PDF × List String) :=
  let s' := s.getD (max (np_amin a.r) (np_amin b.r))
  let e' := e.getD (min (np_amax a.r) (np_amax b.r))
  let i1 := get_rmin_index a.r s'
  let i2 := get_rmin_index b.r s'
  let j1 := get_rmax_index a.r e'
  let j2 := get_rmax_index b.r e'
  if decide ((py_slice a.r i1 j1).length = (py_slice b.r i2 j2).length) &&
      all_close (py_slice a.r i1 j1) (py_slice b.r i2 j2) then
    let res := m (py_slice a.g i1 j1) ((py_slice b.g i2 j2).map (fun y => y * b.scaling_factor))
    if res.success then .ok (⟨a.r, a.g, a.name, res.x⟩, [])
    else .ok (a, [res.message])
  else .error (.xAxisException a.r b.r)

/-- The serialized curve record: the dict `{"r": ..., "g": ..., "name": ...,
"scaling_factor": ...}` built by the `PDF.json` property and consumed by
`PDF.from_json` (the JSON text encoding itself is lossless for these
fields and not modelled). -/
structure PDFRecord where
  r : List ℚ
  g : List ℚ
  name : String
  scaling_factor : ℚ
deriving DecidableEq

/-- The `PDF.json` property: serialize the raw `r`, `g`, `name` and
`scaling_factor` fields. -/
def to_record (p : PDF) : PDFRecord := ⟨p.r, p.g, p.name, p.scaling_factor⟩

/-- `PDF.from_json`: construct via `PDF.__init__` from the stored raw `r`,
`g` and `name`, then set the stored `scaling_factor` on the result. -/
def from_record (rec : PDFRecord) : Except PDFErr PDF :=
  (pdf_init rec.r rec.g rec.name).map (fun p => ⟨p.r, p.g, p.name, rec.scaling_factor⟩)

/-- ASCII digit test, `[0-9]` of the reader regex. -/
def is_digit_ch (c : Char) : Bool := decide ('0' ≤ c) && decide (c ≤ '9')

/-- Match the unsigned-float part `([0-9]+([.][0-9]*)?|[.][0-9]+)` of the
`read_gr_file` regex at the head of the input, returning the remainder.
The match is greedy without backtracking, which coincides with the regex
semantics for this pattern: shortening any greedy repetition leaves a digit
or a dot where the pattern next requires a space, so no shorter match at
the same start position can succeed where the greedy one fails. -/
def match_ufloat (cs : List Char) : Option (List Char) :=
  match cs.span is_digit_ch with
  | ([], _) =>
    match cs with
    | '.' :: rest =>
      match rest.span is_digit_ch with
      | ([], _) => none
      | (_ :: _, rest2) => some rest2
    | _ => none
  | (_ :: _, rest) =>
    match rest with
    | '.' :: rest2 => some (rest2.dropWhile is_digit_ch)
    | _ => some rest

/-- Match `[+-]?` followed by the unsigned float. -/
def match_float (cs : List Char) : Option (List Char) :=
  match cs with
  | '+' :: rest => match_ufloat rest
  | '-' :: rest => match_ufloat rest
  | _ => match_ufloat cs

/-- Match the whole regex `float ( +) float` at the head of the input. -/
def match_pair_at (cs : List Char) : Bool :=
  match match_float cs with
  | none => false
  | some rest =>
    match rest.span (fun c => decide (c = ' ')) with
    | ([], _) => false
    | (_ :: _, rest2) => (match_float rest2).isSome

/-- `regexp.search`: the pattern matches at some start position. -/
def search_pair : List Char → Bool
  | [] => false
  | c :: rest => match_pair_at (c :: rest) || search_pair rest

/-- `_is_data_row` of `PDF.read_gr_file`: `re.search` of the float-pair
regex over the line. -/
def is_data_row (line : List Char) : Bool := search_pair line

/-- Python `str.split(" ")` with an explicit single-space separator:
consecutive spaces produce empty fields. -/
def split_space : List Char → List (List Char)
  | [] => [[]]
  | c :: rest =>
    if c = ' ' then [] :: split_space rest
    else
      match split_space rest with
      | [] => [[c]]
      | h :: t => (c :: h) :: t

/-- Numeric value of a digit string. -/
def digits_nat (ds : List Char) : Nat :=
  ds.foldl (fun n c => 10 * n + (c.toNat - '0'.toNat)) 0

/-- Python whitespace stripped by `float()`. -/
def is_ws (c : Char) : Bool := c = ' ' || c = '\n' || c = '\t' || c = '\r'

/-- Parse the mantissa accepted by Python `float()`:
`digits [. digits]`, `. digits` or `digits .`, returning the value and the
remainder. -/
def parse_mantissa (cs : List Char) : Option (ℚ × List Char) :=
  match cs.span is_digit_ch with
  | ([], _) =>
    match cs with
    | '.' :: rest =>
      match rest.span is_digit_ch with
      | ([], _) => none
      | (fs, rest2) => some ((digits_nat fs : ℚ) / 10 ^ fs.length, rest2)
    | _ => none
  | (ds, rest) =>
    match rest with
    | '.' :: rest2 =>
      match rest2.span is_digit_ch with
      | (fs, rest3) =>
        some ((digits_nat ds : ℚ) + (digits_nat fs : ℚ) / 10 ^ fs.length, rest3)
    | _ => some ((digits_nat ds : ℚ), rest)

/-- Apply a decimal exponent to a rational. -/
def apply_exp (v : ℚ) : Int → ℚ
  | .ofNat n => v * 10 ^ n
  | .negSucc n => v / 10 ^ (n + 1)

/-- Python `float(s)` on the ordinary decimal notations (sign, mantissa,
optional `e`/`E` exponent, surrounding whitespace stripped); the special
tokens `inf`/`nan` and underscore separators never occur in the inputs the
claims concern and are not modelled. Returns `none` where `float()` raises
`ValueError`. -/
def py_float (cs : List Char) : Option ℚ :=
  let cs := (((cs.dropWhile is_ws).reverse).dropWhile is_ws).reverse
  let signed : Option (ℚ × List Char) :=
    match cs with
    | '+' :: rest => parse_mantissa rest
    | '-' :: rest => (parse_mantissa rest).map (fun p => (-p.1, p.2))
    | _ => parse_mantissa cs
  match signed with
  | none => none
  | some (v, rest) =>
    match rest with
    | [] => some v
    | 'e' :: rest2 =>
      match rest2 with
      | '+' :: ds => if ds ≠ [] ∧ ds.all is_digit_ch then some (apply_exp v (digits_nat ds)) else none
      | '-' :: ds => if ds ≠ [] ∧ ds.all is_digit_ch then some (apply_exp v (-(digits_nat ds : Int))) else none
      | ds => if ds ≠ [] ∧ ds.all is_digit_ch then some (apply_exp v (digits_nat ds)) else none
    | 'E' :: rest2 =>
      match rest2 with
      | '+' :: ds => if ds ≠ [] ∧ ds.all is_digit_ch then some (apply_exp v (digits_nat ds)) else none
      | '-' :: ds => if ds ≠ [] ∧ ds.all is_digit_ch then some (apply_exp v (-(digits_nat ds : Int))) else none
      | ds => if ds ≠ [] ∧ ds.all is_digit_ch then some (apply_exp v (digits_nat ds)) else none
    | _ => none

/-- The line loop of `PDF.read_gr_file`: for each line that satisfies
`_is_data_row`, evaluate `x, y = line.split(" ")` — a `ValueError` when the
split does not yield exactly two fields — then `float(x)` and `float(y)`
(`ValueError` on failure), appending to the `r` and `g` lists; every other
line is skipped. -/
def read_gr_lines : List (List Char) → Except PDFErr (List ℚ × List ℚ)
  | [] => .ok ([], [])
  | line :: rest =>
    if is_data_row line then
      match split_space line with
      | [xs, ys] =>
        match py_float xs, py_float ys with
        | some xv, some yv => (read_gr_lines rest).map (fun p => (xv :: p.1, yv :: p.2))
        | _, _ => .error (.valueError "could not convert string to float")
      | _ => .error (.valueError "unpack")
    else read_gr_lines rest

/-- Claim C5 (failing input): construction with `r = [2,1]`, `g = [5,6,7]`
(unequal lengths, `r` unsorted) does not fail at all — fancy indexing
truncates `g` to `[6,5]` and the length check then passes — and with
`r = [3,1,2]`, `g = [1,2]` it fails with `IndexError`, not with the
`DimensionMismatch` `ValueError`. -/
theorem C5_construction_eval :
    pdf_init [2, 1] [5, 6, 7] "exPDF" = Except.ok ⟨[1, 2], [6, 5], "exPDF", 1⟩ ∧
    pdf_init [3, 1, 2] [1, 2] "exPDF" = Except.error PDFErr.indexError := by
  constructor <;> rfl

/-- Claim C2 (failing input): on the sorted curve `r = g = [1,2,3]`,
`add_point_linear 5` succeeds — `_get_rmin_index 5` finds no element `≥ 5`
and falls back to `0`, so the new point is inserted at the front — and the
resulting `r = [5,1,2,3]` is no longer ascending. -/
theorem C2_insertion_breaks_order :
    add_point_linear ⟨[1, 2, 3], [1, 2, 3], "p", 1⟩ 5 =
      Except.ok ⟨[5, 1, 2, 3], [5, 1, 2, 3], "p", 1⟩ ∧
    sorted_le [5, 1, 2, 3] = false := by
  constructor <;> with_unfolding_all decide

/-- Claim C4 (failing input): the line `"1.0  2.0"` (two separating spaces)
satisfies `_is_data_row`, but `split(" ")` yields the three fields
`["1.0", "", "2.0"]`, so the reader fails with a `ValueError` instead of
parsing the pair; with a single space the same pair is parsed. -/
theorem C4_multispace_line_fails :
    is_data_row ("1.0  2.0").toList = true ∧
    split_space ("1.0  2.0").toList = [("1.0").toList, [], ("2.0").toList] ∧
    read_gr_lines [("1.0  2.0").toList] = Except.error (PDFErr.valueError "unpack") ∧
    read_gr_lines [("1.0 2.0").toList] = Except.ok ([1], [2]) := by
  refine ⟨?_, ?_, ?_, ?_⟩ <;> with_unfolding_all decide

/-- Claim C1 (counterexample): on the compatible curves with `g = [2,0]`
and `g = [0,0]` (both factors 1) the code returns `2`, the sum of absolute
differences of the effective values, not `4`, their sum of squared
differences as the claim states. -/
theorem C1_squared_counterexample :
    get_distance ⟨[1, 2], [2, 0], "a", 1⟩ ⟨[1, 2], [0, 0], "b", 1⟩ = Except.ok 2 ∧
    ((2 : ℚ) * 1 - 0 * 1) ^ 2 + ((0 : ℚ) * 1 - 0 * 1) ^ 2 = 4 ∧
    get_distance ⟨[1, 2], [2, 0], "a", 1⟩ ⟨[1, 2], [0, 0], "b", 1⟩ ≠ Except.ok 4 := by
  refine ⟨?_, by norm_num, ?_⟩ <;> with_unfolding_all decide

/-- Claim C3 (counterexample): on the curve `g = [0,1,0]` with
`scaling_factor = -1`, `find_maxima` detects on the raw `g` and returns the
raw pair `(2, 1)`, although under effective values
(`g * scaling_factor = [0,-1,0]`) index 1 is not a local maximum at all
(it is an effective minimum, which `find_minima` does not return). -/
theorem C3_raw_g_counterexample :
    find_maxima ⟨[1, 2, 3], [0, 1, 0], "p", -1⟩ = [(2, 1)] ∧
    ¬ ((0 : ℚ) * (-1) < (1 : ℚ) * (-1)) ∧
    find_minima ⟨[1, 2, 3], [0, 1, 0], "p", -1⟩ = [] := by
  refine ⟨?_, ?_, ?_⟩ <;> with_unfolding_all decide

/-- Claim C6 (counterexample): when the minimizer reports failure, the call
returns normally — the message is printed, no `FitDidNotConverge`-like
failure reaches the caller — and the curve, its `scaling_factor` included,
is returned unchanged. -/
theorem C6_swallowed_counterexample :
    scale_to_pdf (fun _ _ => ⟨false, 37, "fit failed"⟩)
        ⟨[1, 2, 3], [1, 2, 3], "a", 1⟩ ⟨[1, 2, 3], [1, 2, 3], "a", 1⟩
        (some 1) (some 3) =
      Except.ok (⟨[1, 2, 3], [1, 2, 3], "a", 1⟩, ["fit failed"]) ∧
    ∀ err, scale_to_pdf (fun _ _ => ⟨false, 37, "fit failed"⟩)
        ⟨[1, 2, 3], [1, 2, 3], "a", 1⟩ ⟨[1, 2, 3], [1, 2, 3], "a", 1⟩
        (some 1) (some 3) ≠ Except.error err := by
  have h1 : scale_to_pdf (fun _ _ => ⟨false, 37, "fit failed"⟩)
      ⟨[1, 2, 3], [1, 2, 3], "a", 1⟩ ⟨[1, 2, 3], [1, 2, 3], "a", 1⟩
      (some 1) (some 3) =
      Except.ok (⟨[1, 2, 3], [1, 2, 3], "a", 1⟩, ["fit failed"]) := by
    with_unfolding_all decide
  refine ⟨h1, fun err h => ?_⟩
  rw [h1] at h
  exact Except.noConfusion h

/-- Folding `Nat.min` over a list every element of which is at least the
accumulator leaves the accumulator. -/
theorem foldl_min_of_le (t : List Nat) (h : Nat) (hle : ∀ a ∈ t, h ≤ a) :
    t.foldl Nat.min h = h := by
  induction t generalizing h with
  | nil => rfl
  | cons a t ih =>
    have ha : Nat.min h a = h := Nat.min_eq_left (hle a (by simp))
    simp only [List.foldl_cons, ha]
    exact ih h fun b hb => hle b (by simp [hb])

/-- Folding `Nat.max` yields a member of the accumulator-plus-list. -/
theorem foldl_max_mem (t : List Nat) (h : Nat) : t.foldl Nat.max h ∈ h :: t := by
  induction t generalizing h with
  | nil => simp
  | cons a t ih =>
    simp only [List.foldl_cons]
    rcases List.mem_cons.mp (ih (Nat.max h a)) with hm | hm
    · have hc : Nat.max h a = h ∨ Nat.max h a = a := by
        rcases Nat.le_total h a with hcc | hcc
        · exact Or.inr (Nat.max_eq_right hcc)
        · exact Or.inl (Nat.max_eq_left hcc)
      rw [hm]
      rcases hc with hc | hc <;> rw [hc] <;> simp
    · simp [hm]

/-- Every element of the accumulator-plus-list is at most the `Nat.max` fold. -/
theorem le_foldl_max (t : List Nat) (h : Nat) : ∀ a ∈ h :: t, a ≤ t.foldl Nat.max h := by
  induction t generalizing h with
  | nil => simp
  | cons b t ih =>
    intro a ha
    simp only [List.foldl_cons]
    rcases List.mem_cons.mp ha with rfl | ha
    · exact le_trans (Nat.le_max_left a b) (ih (Nat.max a b) _ (by simp))
    · rcases List.mem_cons.mp ha with rfl | ha
      · exact le_trans (Nat.le_max_right h a) (ih (Nat.max h a) _ (by simp))
      · exact ih (Nat.max h b) a (by simp [ha])

/-- Characterization of the head of a filtered index range: it is the least
index below `n` satisfying the predicate, and the `Nat.min` fold collapses
to it. -/
theorem filter_range_head_least (n : Nat) (p : Nat → Bool) (h : Nat) (t : List Nat)
    (hf : (List.range n).filter p = h :: t) :
    t.foldl Nat.min h = h ∧ h < n ∧ p h = true ∧ ∀ j, j < h → ¬ (j < n ∧ p j = true) := by
  have hpw : (h :: t).Pairwise (· < ·) := by
    rw [← hf]; exact (List.pairwise_lt_range n).filter p
  have hlt : ∀ a ∈ t, h < a := (List.pairwise_cons.mp hpw).1
  have hmem : ∀ i, i ∈ h :: t ↔ (i < n ∧ p i = true) := by
    intro i
    rw [← hf, List.mem_filter, List.mem_range]
  refine ⟨foldl_min_of_le t h fun a ha => le_of_lt (hlt a ha), ?_, ?_, ?_⟩
  · exact ((hmem h).mp (by simp)).1
  · exact ((hmem h).mp (by simp)).2
  · intro j hj hcon
    rcases List.mem_cons.mp ((hmem j).mpr hcon) with rfl | hjt
    · exact lt_irrefl j hj
    · exact absurd (hlt j hjt) (by omega)

/-- Characterization of the `Nat.max` fold of a filtered index range: it is
the greatest index below `n` satisfying the predicate. -/
theorem filter_range_fold_greatest (n : Nat) (p : Nat → Bool) (h : Nat) (t : List Nat)
    (hf : (List.range n).filter p = h :: t) :
    t.foldl Nat.max h < n ∧ p (t.foldl Nat.max h) = true ∧
      ∀ j, t.foldl Nat.max h < j → j < n → p j = false := by
  have hmem : ∀ i, i ∈ h :: t ↔ (i < n ∧ p i = true) := by
    intro i
    rw [← hf, List.mem_filter, List.mem_range]
  have hin := (hmem _).mp (foldl_max_mem t h)
  refine ⟨hin.1, hin.2, ?_⟩
  intro j hj hjn
  rcases hb : p j with _ | _
  · rfl
  · exact absurd (le_foldl_max t h j ((hmem j).mpr ⟨hjn, hb⟩)) (by omega)

/-- Claim C7: `index_at_or_above` (`_get_rmin_index`) returns the smallest
index `i` with `r[i] ≥ x` and `0` when no such index exists;
`index_at_or_below` (`_get_rmax_index`) returns the largest index `i` with
`r[i] ≤ x` and `len r` when no such index exists; together with the four
concrete lookups on `r = [1, 1.5, 2, 2.5, 3]` the claim lists. -/
theorem C7_index_lookup (r : List ℚ) (x : ℚ) :
    ((∃ i, i < r.length ∧ x ≤ r.getD i 0) →
      get_rmin_index r x < r.length ∧ x ≤ r.getD (get_rmin_index r x) 0 ∧
        ∀ j, j < get_rmin_index r x → r.getD j 0 < x) ∧
    ((∀ i, i < r.length → r.getD i 0 < x) → get_rmin_index r x = 0) ∧
    ((∃ i, i < r.length ∧ r.getD i 0 ≤ x) →
      get_rmax_index r x < r.length ∧ r.getD (get_rmax_index r x) 0 ≤ x ∧
        ∀ j, get_rmax_index r x < j → j < r.length → x < r.getD j 0) ∧
    ((∀ i, i < r.length → x < r.getD i 0) → get_rmax_index r x = r.length) ∧
    get_rmin_index [1, 3/2, 2, 5/2, 3] (3/2) = 1 ∧
    get_rmin_index [1, 3/2, 2, 5/2, 3] (17/10) = 2 ∧
    get_rmax_index [1, 3/2, 2, 5/2, 3] (3/2) = 1 ∧
    get_rmax_index [1, 3/2, 2, 5/2, 3] (17/10) = 1 := by
  refine ⟨?_, ?_, ?_, ?_, ?_, ?_, ?_, ?_⟩
  · rintro ⟨i, hi, hxi⟩
    cases hf : (List.range r.length).filter (fun i => decide (x ≤ r.getD i 0)) with
    | nil =>
      exfalso
      have hmem : i ∈ (List.range r.length).filter (fun i => decide (x ≤ r.getD i 0)) := by
        rw [List.mem_filter, List.mem_range]
        exact ⟨hi, decide_eq_true hxi⟩
      rw [hf] at hmem
      exact absurd hmem (List.not_mem_nil i)
    | cons h t =>
      obtain ⟨hmin, hn, hp, hleast⟩ :=
        filter_range_head_least r.length (fun i => decide (x ≤ r.getD i 0)) h t hf
      have hg : get_rmin_index r x = h := by
        unfold get_rmin_index
        rw [hf]
        exact hmin
      rw [hg]
      refine ⟨hn, of_decide_eq_true hp, ?_⟩
      intro j hj
      by_contra hcon
      push_neg at hcon
      exact hleast j hj ⟨by omega, decide_eq_true hcon⟩
  · intro hall
    cases hf : (List.range r.length).filter (fun i => decide (x ≤ r.getD i 0)) with
    | nil =>
      unfold get_rmin_index
      rw [hf]
    | cons h t =>
      exfalso
      obtain ⟨_, hn, hp, _⟩ :=
        filter_range_head_least r.length (fun i => decide (x ≤ r.getD i 0)) h t hf
      exact absurd (of_decide_eq_true hp) (not_le.mpr (hall h hn))
  · rintro ⟨i, hi, hxi⟩
    cases hf : (List.range r.length).filter (fun i => decide (r.getD i 0 ≤ x)) with
    | nil =>
      exfalso
      have hmem : i ∈ (List.range r.length).filter (fun i => decide (r.getD i 0 ≤ x)) := by
        rw [List.mem_filter, List.mem_range]
        exact ⟨hi, decide_eq_true hxi⟩
      rw [hf] at hmem
      exact absurd hmem (List.not_mem_nil i)
    | cons h t =>
      obtain ⟨hn, hp, hgreat⟩ :=
        filter_range_fold_greatest r.length (fun i => decide (r.getD i 0 ≤ x)) h t hf
      have hg : get_rmax_index r x = t.foldl Nat.max h := by
        unfold get_rmax_index
        rw [hf]
      rw [hg]
      refine ⟨hn, of_decide_eq_true hp, ?_⟩
      intro j hj hjn
      have hfalse := hgreat j hj hjn
      by_contra hcon
      push_neg at hcon
      rw [decide_eq_true hcon] at hfalse
      exact Bool.noConfusion hfalse
  · intro hall
    cases hf : (List.range r.length).filter (fun i => decide (r.getD i 0 ≤ x)) with
    | nil =>
      unfold get_rmax_index
      rw [hf]
    | cons h t =>
      exfalso
      obtain ⟨hn, hp, _⟩ :=
        filter_range_fold_greatest r.length (fun i => decide (r.getD i 0 ≤ x)) h t hf
      exact absurd (of_decide_eq_true hp) (not_le.mpr (hall _ hn))
  · with_unfolding_all decide
  · with_unfolding_all decide
  · with_unfolding_all decide
  · with_unfolding_all decide

/-- Witness for C7 at `r = [1, 1.5, 2, 2.5, 3]`, `x = 1.7`: some index
qualifies, and the returned index is in range with value `≥ x`. -/
theorem C7_index_lookup_witness :
    get_rmin_index [1, 3/2, 2, 5/2, 3] (17/10) < ([1, 3/2, 2, 5/2, 3] : List ℚ).length ∧
    (17/10 : ℚ) ≤ ([1, 3/2, 2, 5/2, 3] : List ℚ).getD (get_rmin_index [1, 3/2, 2, 5/2, 3] (17/10)) 0 := by
  have H := (C7_index_lookup [1, 3/2, 2, 5/2, 3] (17/10)).1
    ⟨2, by norm_num, by with_unfolding_all decide⟩
  exact ⟨H.1, H.2.1⟩

/-- `getD` of a `zipWith` at an in-range index is the function of the two
`getD`s. -/
theorem getD_zipWith (f : ℚ → ℚ → ℚ) :
    ∀ (l1 l2 : List ℚ) (i : Nat), i < l1.length → i < l2.length →
      (List.zipWith f l1 l2).getD i 0 = f (l1.getD i 0) (l2.getD i 0) := by
  intro l1
  induction l1 with
  | nil => intro l2 i h1 _; simp at h1
  | cons a t ih =>
    intro l2 i h1 h2
    cases l2 with
    | nil => simp at h2
    | cons b s =>
      cases i with
      | zero => simp
      | succ n =>
        simp only [List.zipWith_cons_cons, List.getD_cons_succ]
        exact ih s n (by simpa using h1) (by simpa using h2)

/-- The summed absolute values of a `zipWith` over equal-length lists as an
indexed sum. -/
theorem sum_map_abs_zipWith (f : ℚ → ℚ → ℚ) :
    ∀ (l1 l2 : List ℚ), l1.length = l2.length →
      ((List.zipWith f l1 l2).map (fun d => |d|)).sum =
        ∑ i ∈ Finset.range l1.length, |f (l1.getD i 0) (l2.getD i 0)| := by
  intro l1
  induction l1 with
  | nil => intro l2 _; simp
  | cons a t ih =>
    intro l2 hlen
    cases l2 with
    | nil => simp at hlen
    | cons b s =>
      simp only [List.zipWith_cons_cons, List.map_cons, List.sum_cons, List.length_cons]
      rw [Finset.sum_range_succ']
      simp only [List.getD_cons_succ, List.getD_cons_zero]
      rw [ih s (by simpa using hlen)]
      ring

/-- `np.allclose` is reflexive. -/
theorem all_close_refl (l : List ℚ) : all_close l l = true := by
  induction l with
  | nil => rfl
  | cons x t ih =>
    simp only [all_close, ih, Bool.and_true, decide_eq_true_eq, sub_self, abs_zero]
    norm_num [atol]

/-- Axis compatibility forces equal axis lengths. -/
theorem compat_len {a b : PDF} (h : x_axes_compatible a b = true) :
    a.r.length = b.r.length := by
  unfold x_axes_compatible at h
  rw [Bool.and_eq_true, decide_eq_true_eq] at h
  exact h.1

/-- Claim C1 (amended): `get_distance` of axis-compatible curves is the sum
of ABSOLUTE differences of the effective `g` values (the source applies
`np.abs`, not a square), and of incompatible curves it fails with
`XAxisException`. -/
theorem C1_distance_abs (a b : PDF) (hla : a.g.length = a.r.length)
    (hlb : b.g.length = b.r.length) :
    (x_axes_compatible a b = true →
      get_distance a b = Except.ok (∑ i ∈ Finset.range a.g.length,
        |a.g.getD i 0 * a.scaling_factor - b.g.getD i 0 * b.scaling_factor|)) ∧
    (x_axes_compatible a b = false →
      get_distance a b = Except.error (PDFErr.xAxisException a.r b.r)) := by
  constructor
  · intro hc
    have hgl : a.g.length = b.g.length := by
      have := compat_len hc
      omega
    unfold get_distance
    rw [hc]
    simp only [if_true]
    rw [sum_map_abs_zipWith (fun x y => x * a.scaling_factor - y * b.scaling_factor) a.g b.g hgl]
  · intro hc
    unfold get_distance
    rw [hc]
    simp

/-- Witness for C1 at the spec's concrete pair of curves (whose distance the
spec gives as 1). -/
theorem C1_distance_abs_witness :
    get_distance ⟨[1, 2, 3, 4, 5], [5, 4, 3, 2, 1], "a", 1⟩
        ⟨[1, 2, 3, 4, 5], [6, 4, 3, 2, 1], "b", 1⟩ =
      Except.ok (∑ i ∈ Finset.range ([5, 4, 3, 2, 1] : List ℚ).length,
        |([5, 4, 3, 2, 1] : List ℚ).getD i 0 * 1 - ([6, 4, 3, 2, 1] : List ℚ).getD i 0 * 1|) :=
  (C1_distance_abs ⟨[1, 2, 3, 4, 5], [5, 4, 3, 2, 1], "a", 1⟩
    ⟨[1, 2, 3, 4, 5], [6, 4, 3, 2, 1], "b", 1⟩ rfl rfl).1 (by with_unfolding_all decide)

/-- Claim C8: adding axis-compatible curves yields a curve with `r = a.r`,
elementwise effective-sum `g`, `scaling_factor = 1` and the name
`"{a.name} + {b.name}"`; on incompatible axes it fails with
`XAxisException` and returns no curve. The curves are well-formed:
constructor-produced, so `r` is ascending and `len g = len r`. -/
theorem C8_add_spec (a b : PDF) (hs : sorted_le a.r = true)
    (hla : a.g.length = a.r.length) (hlb : b.g.length = b.r.length) :
    (x_axes_compatible a b = true →
      ∃ c, pdf_add a b = Except.ok c ∧ c.r = a.r ∧ c.scaling_factor = 1 ∧
        c.name = a.name ++ " + " ++ b.name ∧ c.g.length = a.g.length ∧
        ∀ i, i < a.g.length →
          c.g.getD i 0 = a.g.getD i 0 * a.scaling_factor + b.g.getD i 0 * b.scaling_factor) ∧
    (x_axes_compatible a b = false →
      pdf_add a b = Except.error (PDFErr.xAxisException a.r b.r) ∧
        ∀ c, pdf_add a b ≠ Except.ok c) := by
  constructor
  · intro hc
    have hrl := compat_len hc
    have hzlen : (List.zipWith (fun x y => x * a.scaling_factor + y * b.scaling_factor)
        a.g b.g).length = a.g.length := by
      rw [List.length_zipWith]
      omega
    have heq : pdf_add a b = Except.ok ⟨a.r,
        List.zipWith (fun x y => x * a.scaling_factor + y * b.scaling_factor) a.g b.g,
        a.name ++ " + " ++ b.name, 1⟩ := by
      unfold pdf_add pdf_init
      rw [hc, hs]
      simp only [if_true]
      rw [if_pos (by omega)]
    refine ⟨_, heq, rfl, rfl, rfl, hzlen, ?_⟩
    intro i hi
    exact getD_zipWith _ a.g b.g i hi (by omega)
  · intro hc
    have herr : pdf_add a b = Except.error (PDFErr.xAxisException a.r b.r) := by
      unfold pdf_add
      rw [hc]
      simp
    refine ⟨herr, fun c h => ?_⟩
    rw [herr] at h
    exact Except.noConfusion h

/-- Witness for C8 at the spec's concrete example
`[5,4,3,2,1] + [6,4,3,2,1] = [11,8,6,4,2]`. -/
theorem C8_add_spec_witness :
    ∃ c, pdf_add ⟨[1, 2, 3, 4, 5], [5, 4, 3, 2, 1], "a", 1⟩
        ⟨[1, 2, 3, 4, 5], [6, 4, 3, 2, 1], "b", 1⟩ = Except.ok c ∧
      c.r = ([1, 2, 3, 4, 5] : List ℚ) ∧ c.scaling_factor = 1 ∧
      c.name = "a" ++ " + " ++ "b" ∧ c.g.length = ([5, 4, 3, 2, 1] : List ℚ).length ∧
      ∀ i, i < ([5, 4, 3, 2, 1] : List ℚ).length →
        c.g.getD i 0 = ([5, 4, 3, 2, 1] : List ℚ).getD i 0 * 1 +
          ([6, 4, 3, 2, 1] : List ℚ).getD i 0 * 1 :=
  (C8_add_spec ⟨[1, 2, 3, 4, 5], [5, 4, 3, 2, 1], "a", 1⟩
    ⟨[1, 2, 3, 4, 5], [6, 4, 3, 2, 1], "b", 1⟩ (by with_unfolding_all decide) rfl rfl).1
    (by with_unfolding_all decide)

/-- Claim C9: deserializing the serialized record of a (well-formed) curve
succeeds and yields a curve equal to it under `PDF.__eq__`, with `g`
restored raw and the stored `scaling_factor` intact. -/
theorem C9_record_roundtrip (a : PDF) (hs : sorted_le a.r = true)
    (hl : a.r.length = a.g.length) :
    ∃ c, from_record (to_record a) = Except.ok c ∧ c.g = a.g ∧
      c.scaling_factor = a.scaling_factor ∧ pdf_eq c a = true := by
  refine ⟨a, ?_, rfl, rfl, ?_⟩
  · unfold from_record to_record pdf_init
    rw [hs]
    simp only [if_true]
    rw [if_pos hl]
    rfl
  · simp [pdf_eq, all_close_refl]

/-- Witness for C9 at a concrete curve with a non-trivial scaling factor. -/
theorem C9_record_roundtrip_witness :
    ∃ c, from_record (to_record ⟨[1, 2, 3], [4, 5, 6], "n", 7⟩) = Except.ok c ∧
      c.g = ([4, 5, 6] : List ℚ) ∧ c.scaling_factor = 7 ∧
      pdf_eq c ⟨[1, 2, 3], [4, 5, 6], "n", 7⟩ = true :=
  C9_record_roundtrip ⟨[1, 2, 3], [4, 5, 6], "n", 7⟩ (by with_unfolding_all decide) rfl

/-- Claim C10: in-place add/subtract divide by the target's own scaling
factor with no guard; under the precondition `a.scaling_factor ≠ 0` they
succeed on compatible well-formed curves, leave `r`, `name` and
`scaling_factor` unchanged, and the updated effective values equal the
intended effective sum and difference. -/
theorem C10_inplace_effective (a b : PDF) (h0 : a.scaling_factor ≠ 0)
    (hla : a.g.length = a.r.length) (hlb : b.g.length = b.r.length)
    (hc : x_axes_compatible a b = true) :
    ∃ c d, pdf_iadd a b = Except.ok c ∧ pdf_isub a b = Except.ok d ∧
      c.scaling_factor = a.scaling_factor ∧ d.scaling_factor = a.scaling_factor ∧
      c.r = a.r ∧ d.r = a.r ∧ c.name = a.name ∧ d.name = a.name ∧
      (∀ i, i < a.g.length →
        c.g.getD i 0 * c.scaling_factor =
          a.g.getD i 0 * a.scaling_factor + b.g.getD i 0 * b.scaling_factor) ∧
      (∀ i, i < a.g.length →
        d.g.getD i 0 * d.scaling_factor =
          a.g.getD i 0 * a.scaling_factor - b.g.getD i 0 * b.scaling_factor) := by
  have hgl : a.g.length = b.g.length := by
    have := compat_len hc
    omega
  have hadd : pdf_iadd a b = Except.ok ⟨a.r,
      List.zipWith (fun x y => x + y * (b.scaling_factor / a.scaling_factor)) a.g b.g,
      a.name, a.scaling_factor⟩ := by
    unfold pdf_iadd
    rw [hc]
    simp
  have hsub : pdf_isub a b = Except.ok ⟨a.r,
      List.zipWith (fun x y => x - y * (b.scaling_factor / a.scaling_factor)) a.g b.g,
      a.name, a.scaling_factor⟩ := by
    unfold pdf_isub
    rw [hc]
    simp
  refine ⟨_, _, hadd, hsub, rfl, rfl, rfl, rfl, rfl, rfl, ?_, ?_⟩
  · intro i hi
    rw [getD_zipWith _ a.g b.g i hi (by omega)]
    rw [add_mul, mul_assoc, div_mul_cancel₀ _ h0]
  · intro i hi
    rw [getD_zipWith _ a.g b.g i hi (by omega)]
    rw [sub_mul, mul_assoc, div_mul_cancel₀ _ h0]

/-- Witness for C10 at concrete curves with `a.scaling_factor = 2`,
`b.scaling_factor = 3`. -/
theorem C10_inplace_effective_witness :
    ∃ c d, pdf_iadd ⟨[1, 2], [4, 6], "a", 2⟩ ⟨[1, 2], [10, 20], "b", 3⟩ = Except.ok c ∧
      pdf_isub ⟨[1, 2], [4, 6], "a", 2⟩ ⟨[1, 2], [10, 20], "b", 3⟩ = Except.ok d ∧
      c.scaling_factor = 2 ∧ d.scaling_factor = 2 ∧
      c.r = ([1, 2] : List ℚ) ∧ d.r = ([1, 2] : List ℚ) ∧ c.name = "a" ∧ d.name = "a" ∧
      (∀ i, i < ([4, 6] : List ℚ).length →
        c.g.getD i 0 * c.scaling_factor =
          ([4, 6] : List ℚ).getD i 0 * 2 + ([10, 20] : List ℚ).getD i 0 * 3) ∧
      (∀ i, i < ([4, 6] : List ℚ).length →
        d.g.getD i 0 * d.scaling_factor =
          ([4, 6] : List ℚ).getD i 0 * 2 - ([10, 20] : List ℚ).getD i 0 * 3) :=
  C10_inplace_effective ⟨[1, 2], [4, 6], "a", 2⟩ ⟨[1, 2], [10, 20], "b", 3⟩
    (by norm_num) rfl rfl (by with_unfolding_all decide)

/-- The adjacent-pairs sortedness test of the constructor is the chain
condition. -/
theorem sorted_le_iff_chain (l : List ℚ) : sorted_le l = true ↔ l.Chain' (· ≤ ·) := by
  induction l with
  | nil => simp [sorted_le]
  | cons x t ih =>
    cases t with
    | nil => simp [sorted_le]
    | cons y s =>
      rw [List.chain'_cons]
      simp only [sorted_le, Bool.and_eq_true, decide_eq_true_eq]
      rw [ih]

/-- On a curve passing the constructor's sortedness test, `getD` is
monotone on in-range indices. -/
theorem getD_mono_of_sorted (r : List ℚ) (hs : sorted_le r = true) :
    ∀ i j, i ≤ j → j < r.length → r.getD i 0 ≤ r.getD j 0 := by
  have hp : r.Pairwise (· ≤ ·) := List.chain'_iff_pairwise.mp ((sorted_le_iff_chain r).mp hs)
  intro i j hij hj
  rcases Nat.eq_or_lt_of_le hij with rfl | hlt
  · exact le_refl _
  · have hi : i < r.length := by omega
    rw [List.getD_eq_getElem r 0 hi, List.getD_eq_getElem r 0 hj]
    have := List.pairwise_iff_get.mp hp ⟨i, hi⟩ ⟨j, hj⟩ hlt
    simpa using this

/-- Membership in `argrelextrema` indices for an irreflexive comparator:
exactly the interior indices strictly related to both neighbours (the
boundary clipping makes endpoints compare with themselves and drop out). -/
theorem argrel_mem_iff (g : List ℚ) (cmp : ℚ → ℚ → Bool) (hirr : ∀ u, cmp u u = false)
    (i : Nat) :
    i ∈ argrelextrema_idx g cmp ↔
      (0 < i ∧ i + 1 < g.length ∧ cmp (g.getD i 0) (g.getD (i - 1) 0) = true ∧
        cmp (g.getD i 0) (g.getD (i + 1) 0) = true) := by
  simp only [argrelextrema_idx, List.mem_filter, List.mem_range, Bool.and_eq_true]
  constructor
  · rintro ⟨hin, h1, h2⟩
    have hi0 : 0 < i := by
      by_contra h
      have hz : i = 0 := by omega
      subst hz
      have h1' : cmp (g.getD 0 0) (g.getD 0 0) = true := h1
      rw [hirr] at h1'
      exact Bool.noConfusion h1'
    have hi1 : i + 1 < g.length := by
      by_contra h
      have hmin : min (i + 1) (g.length - 1) = i := by omega
      rw [hmin, hirr] at h2
      exact Bool.noConfusion h2
    rw [show min (i + 1) (g.length - 1) = i + 1 by omega] at h2
    exact ⟨hi0, hi1, h1, h2⟩
  · rintro ⟨h0, h1, hc1, hc2⟩
    refine ⟨by omega, hc1, ?_⟩
    rw [show min (i + 1) (g.length - 1) = i + 1 by omega]
    exact hc2

/-- Claim C3 (amended): `find_maxima`/`find_minima` detect on the RAW `g`
values (the scaling factor is not applied) and return the raw `(r, g)`
pairs at exactly the interior indices strictly greater (resp. smaller)
than both neighbours; the returned pairs are in ascending `r` order. -/
theorem C3_extrema_raw (p : PDF) (hs : sorted_le p.r = true)
    (hl : p.g.length = p.r.length) :
    (∀ q : ℚ × ℚ, q ∈ find_maxima p ↔ ∃ i, 0 < i ∧ i + 1 < p.g.length ∧
        p.g.getD (i - 1) 0 < p.g.getD i 0 ∧ p.g.getD (i + 1) 0 < p.g.getD i 0 ∧
        q = (p.r.getD i 0, p.g.getD i 0)) ∧
    (∀ q : ℚ × ℚ, q ∈ find_minima p ↔ ∃ i, 0 < i ∧ i + 1 < p.g.length ∧
        p.g.getD i 0 < p.g.getD (i - 1) 0 ∧ p.g.getD i 0 < p.g.getD (i + 1) 0 ∧
        q = (p.r.getD i 0, p.g.getD i 0)) ∧
    ((find_maxima p).map Prod.fst).Pairwise (· ≤ ·) ∧
    ((find_minima p).map Prod.fst).Pairwise (· ≤ ·) := by
  have hsortmap : ∀ (l : List Nat), l.Pairwise (· < ·) → (∀ i ∈ l, i < p.r.length) →
      ((l.map (fun i => p.r.getD i 0)).Pairwise (· ≤ ·)) := by
    intro l hp hmem
    rw [List.pairwise_map]
    refine hp.imp_of_mem ?_
    intro u v hu hv huv
    exact getD_mono_of_sorted p.r hs u v (le_of_lt huv) (hmem v hv)
  refine ⟨?_, ?_, ?_, ?_⟩
  · intro q
    simp only [find_maxima, List.mem_map]
    constructor
    · rintro ⟨i, hmem, rfl⟩
      obtain ⟨h0, h1, hc1, hc2⟩ := (argrel_mem_iff p.g _ (fun u => by simp) i).mp hmem
      exact ⟨i, h0, h1, by simpa using hc1, by simpa using hc2, rfl⟩
    · rintro ⟨i, h0, h1, hlt1, hlt2, rfl⟩
      exact ⟨i, (argrel_mem_iff p.g _ (fun u => by simp) i).mpr
        ⟨h0, h1, by simpa using hlt1, by simpa using hlt2⟩, rfl⟩
  · intro q
    simp only [find_minima, List.mem_map]
    constructor
    · rintro ⟨i, hmem, rfl⟩
      obtain ⟨h0, h1, hc1, hc2⟩ := (argrel_mem_iff p.g _ (fun u => by simp) i).mp hmem
      exact ⟨i, h0, h1, by simpa using hc1, by simpa using hc2, rfl⟩
    · rintro ⟨i, h0, h1, hlt1, hlt2, rfl⟩
      exact ⟨i, (argrel_mem_iff p.g _ (fun u => by simp) i).mpr
        ⟨h0, h1, by simpa using hlt1, by simpa using hlt2⟩, rfl⟩
  · have hcomp : (find_maxima p).map Prod.fst =
        (argrelextrema_idx p.g (fun u v => decide (v < u))).map (fun i => p.r.getD i 0) := by
      unfold find_maxima
      rw [List.map_map]
      rfl
    rw [hcomp]
    refine hsortmap _ ((List.pairwise_lt_range p.g.length).filter _) ?_
    intro i hi
    have := (argrel_mem_iff p.g _ (fun u => by simp) i).mp hi
    omega
  · have hcomp : (find_minima p).map Prod.fst =
        (argrelextrema_idx p.g (fun u v => decide (u < v))).map (fun i => p.r.getD i 0) := by
      unfold find_minima
      rw [List.map_map]
      rfl
    rw [hcomp]
    refine hsortmap _ ((List.pairwise_lt_range p.g.length).filter _) ?_
    intro i hi
    have := (argrel_mem_iff p.g _ (fun u => by simp) i).mp hi
    omega

/-- Witness for C3 at the spec's concrete curve
`g = [0,1,-1,5,4,7]`: `(2, 1)` is a returned maximum. -/
theorem C3_extrema_raw_witness :
    ((2 : ℚ), (1 : ℚ)) ∈ find_maxima ⟨[1, 2, 3, 4, 5, 6], [0, 1, -1, 5, 4, 7], "p", 1⟩ :=
  ((C3_extrema_raw ⟨[1, 2, 3, 4, 5, 6], [0, 1, -1, 5, 4, 7], "p", 1⟩
      (by with_unfolding_all decide) rfl).1 ((2 : ℚ), (1 : ℚ))).mpr
    ⟨1, by norm_num, by norm_num, by with_unfolding_all decide, by with_unfolding_all decide,
      by with_unfolding_all decide⟩

/-- Claim C6 (amended): whenever the minimizer fails to converge, the call
either fails with `XAxisException` (incompatible slices, before the
minimizer runs) or returns normally with the curve — its `scaling_factor`
included — unchanged and the minimizer's message merely printed: no typed
failure reaches the caller. -/
theorem C6_print_not_raise (m : List ℚ → List ℚ → MinimizeResult) (a b : PDF) (s e : ℚ)
    (hm : ∀ u v, (m u v).success = false) :
    (∃ msg, scale_to_pdf m a b (some s) (some e) = Except.ok (a, [msg])) ∨
      scale_to_pdf m a b (some s) (some e) =
        Except.error (PDFErr.xAxisException a.r b.r) := by
  unfold scale_to_pdf
  simp only [Option.getD_some]
  by_cases hcond : (decide ((py_slice a.r (get_rmin_index a.r s) (get_rmax_index a.r e)).length =
      (py_slice b.r (get_rmin_index b.r s) (get_rmax_index b.r e)).length) &&
      all_close (py_slice a.r (get_rmin_index a.r s) (get_rmax_index a.r e))
        (py_slice b.r (get_rmin_index b.r s) (get_rmax_index b.r e))) = true
  · rw [if_pos hcond, hm]
    simp only [Bool.false_eq_true, if_false]
    exact Or.inl ⟨_, rfl⟩
  · rw [if_neg hcond]
    exact Or.inr rfl

/-- Witness for C6 with an always-failing minimizer on identical curves. -/
theorem C6_print_not_raise_witness :
    (∃ msg, scale_to_pdf (fun _ _ => ⟨false, 5, "no convergence"⟩)
        ⟨[1, 2, 3], [1, 2, 3], "a", 1⟩ ⟨[1, 2, 3], [1, 2, 3], "a", 1⟩ (some 1) (some 3) =
      Except.ok (⟨[1, 2, 3], [1, 2, 3], "a", 1⟩, [msg])) ∨
      scale_to_pdf (fun _ _ => ⟨false, 5, "no convergence"⟩)
        ⟨[1, 2, 3], [1, 2, 3], "a", 1⟩ ⟨[1, 2, 3], [1, 2, 3], "a", 1⟩ (some 1) (some 3) =
        Except.error (PDFErr.xAxisException [1, 2, 3] [1, 2, 3]) :=
  C6_print_not_raise (fun _ _ => ⟨false, 5, "no convergence"⟩)
    ⟨[1, 2, 3], [1, 2, 3], "a", 1⟩ ⟨[1, 2, 3], [1, 2, 3], "a", 1⟩ 1 3 (fun _ _ => rfl)
